import Mathlib

/-!
Verification of the Prolog-style loan classification engine
(`prolog_loan_system.py`): the rule parser `_parse_prolog_rules`, the
condition evaluator `_evaluate_condition`, and the rule engine `classify`
of class `PrologLoanClassifier`.

Modelling conventions:
* Python strings are `String`; the relevant `str` methods (`strip`,
  `rstrip`, `split`, `startswith`, `endswith`, `in`, `lower`, `upper`,
  `s[:-1]`) are re-implemented below on `List Char` so that everything
  reduces in the kernel.
* Python `float` values are modelled as exact rationals `ℚ` (the knowledge
  base only carries short decimal literals; `float`'s exponent/`inf`/`nan`
  forms and binary rounding are below the observational granularity of the
  properties proved here).
* A raised Python exception is modelled by `none` in an `Option` result;
  the parser's enclosing `try/except` is the `Option.getD []` in
  `parsePrologRules`.
-/

set_option maxRecDepth 100000

namespace LoanProlog

/-- Python `pat in s` (substring containment) on character lists. -/
def containsSub (pat : List Char) : List Char → Bool
  | [] => pat.isEmpty
  | c :: tl => pat.isPrefixOf (c :: tl) || containsSub pat tl

/-- Python `pat in s` for strings. -/
def pyIn (pat s : String) : Bool := containsSub pat.data s.data

/-- Python `s.strip()` on character lists: drop whitespace at both ends. -/
def stripL (s : List Char) : List Char :=
  ((s.dropWhile Char.isWhitespace).reverse.dropWhile Char.isWhitespace).reverse

/-- Python `s.strip()`. -/
def pyStrip (s : String) : String := ⟨stripL s.data⟩

/-- Python `s.rstrip(',')`: drop trailing commas. -/
def pyRstripCommas (s : String) : String :=
  ⟨(s.data.reverse.dropWhile (fun c => c == ',')).reverse⟩

/-- Python `s.startswith(pre)`. -/
def pyStartswith (s pre : String) : Bool := pre.data.isPrefixOf s.data

/-- Python `s.endswith(suf)`. -/
def pyEndswith (s suf : String) : Bool := suf.data.isSuffixOf s.data

/-- Python `s.lower()` (ASCII). -/
def pyLower (s : String) : String := ⟨s.data.map Char.toLower⟩

/-- Python `s.upper()` (ASCII). -/
def pyUpper (s : String) : String := ⟨s.data.map Char.toUpper⟩

/-- Python `s[:-1]`. -/
def pyDropLast (s : String) : String := ⟨s.data.dropLast⟩

/-- Fuelled worker for Python `s.split(sep)` with non-empty `sep`:
splits at the leftmost occurrences, non-overlapping. -/
def pySplitL (sep : List Char) : Nat → List Char → List (List Char)
  | _, [] => [[]]
  | 0, s => [s]
  | fuel + 1, c :: tl =>
    if sep.isPrefixOf (c :: tl) then
      [] :: pySplitL sep fuel (tl.drop (sep.length - 1))
    else
      match pySplitL sep fuel tl with
      | [] => [[c]]
      | t :: ts => (c :: t) :: ts

/-- Python `s.split(sep)` for a non-empty separator. -/
def pySplit (s sep : String) : List String :=
  (pySplitL sep.data s.data.length s.data).map (fun cs => ⟨cs⟩)

/-- Split a character list at every character satisfying `p`,
keeping empty fragments. -/
def splitByPred (p : Char → Bool) : List Char → List (List Char)
  | [] => [[]]
  | c :: tl =>
    if p c then [] :: splitByPred p tl
    else
      match splitByPred p tl with
      | [] => [[c]]
      | t :: ts => (c :: t) :: ts

/-- Python `s.split()` (no argument): split on whitespace runs,
discarding empty fragments. -/
def pySplitWs (s : String) : List String :=
  ((splitByPred Char.isWhitespace s.data).filter (fun l => !l.isEmpty)).map
    (fun cs => ⟨cs⟩)

/-- Numeric value of a digit list (most significant first). -/
def digitsVal (l : List Char) : ℕ :=
  l.foldl (fun n c => 10 * n + (c.toNat - 48)) 0

/-- Python `float(s)` modelled on exact rationals, for plain decimal
literals (optional sign, digits, at most one point); anything else —
in particular the non-numeric operands that make `float` raise
`ValueError` — is `none`. The value `i.f` is the rational
`(i * 10^len(f) + f) / 10^len(f)`, built with core `mkRat` so that it
evaluates by kernel reduction. -/
def parseFloat (s : String) : Option ℚ :=
  let t := stripL s.data
  let sb : Bool × List Char :=
    match t with
    | '-' :: rest => (true, rest)
    | '+' :: rest => (false, rest)
    | _ => (false, t)
  let sign : ℤ := if sb.1 then -1 else 1
  match pySplitL ['.'] sb.2.length sb.2 with
  | [a] =>
    if !a.isEmpty && a.all Char.isDigit then
      some (mkRat (sign * (digitsVal a : ℤ)) 1)
    else none
  | [a, b] =>
    if (!a.isEmpty || !b.isEmpty) && a.all Char.isDigit && b.all Char.isDigit then
      some (mkRat (sign * ((digitsVal a * 10 ^ b.length + digitsVal b : ℕ) : ℤ))
        (10 ^ b.length))
    else none
  | _ => none

/-- Python `int(s)`: optional sign and digits; otherwise `none`
(a raised `ValueError`). -/
def parseInt (s : String) : Option ℤ :=
  let t := stripL s.data
  let sb : Bool × List Char :=
    match t with
    | '-' :: rest => (true, rest)
    | '+' :: rest => (false, rest)
    | _ => (false, t)
  if !sb.2.isEmpty && sb.2.all Char.isDigit then
    some ((if sb.1 then -1 else 1) * (digitsVal sb.2 : ℤ))
  else none

/-- Decimal digits of a natural number (fuelled). -/
def natDigits : Nat → Nat → List Char
  | 0, _ => []
  | fuel + 1, n =>
    if n < 10 then [Char.ofNat (48 + n)]
    else natDigits fuel (n / 10) ++ [Char.ofNat (48 + n % 10)]

/-- Decimal rendering of a natural number. -/
def natToStr (n : Nat) : String := ⟨natDigits (n + 1) n⟩

/-- Zero-padded three-digit rendering. -/
def pad3 (k : Nat) : String :=
  if k < 10 then "00" ++ natToStr k
  else if k < 100 then "0" ++ natToStr k
  else natToStr k

/-- Python `format(q, '.3f')` modelled on exact rationals:
round to three decimal places and render (core `Rat` operations, so the
definition evaluates by kernel reduction). -/
def fmt3 (q : ℚ) : String :=
  let n : ℤ := Rat.floor (Rat.add (Rat.mul q (mkRat 1000 1)) (mkRat 1 2))
  let m := n.natAbs
  (if n < 0 then "-" else "") ++ natToStr (m / 1000) ++ "." ++ pad3 (m % 1000)

/-! ## Data model -/

/-- One applicant record, the six arguments of
`PrologLoanClassifier.classify`. -/
structure Applicant where
  sex : String
  age : ℤ
  loan_term : ℤ
  num_accounts : ℤ
  loan_type : String
  loan_area : ℤ
deriving Repr, DecidableEq

/-- A finalized rule dictionary as appended to `rules` by
`_parse_prolog_rules`. The `decision` key can be absent (a quirk of the
parser's state machine), hence `Option`; the other three keys are always
set before a rule is appended. -/
structure Rule where
  decision : Option String
  conditions : List String
  confidence : ℚ
  samples : ℤ
deriving Repr, DecidableEq

/-- The in-progress `current_rule` dictionary of the parser: every key
may still be absent. -/
structure PartialRule where
  decision : Option String := none
  conditions : Option (List String) := none
  confidence : Option ℚ := none
  samples : Option ℤ := none
deriving Repr, DecidableEq

/-- Parser loop state: the accumulated `rules` list, `current_rule`,
and the `in_rule` flag. -/
structure ParseState where
  rules : List Rule
  cur : PartialRule
  inRule : Bool
deriving Repr, DecidableEq

/-- The dictionary returned by `classify`. -/
structure ClassificationResult where
  decision : String
  confidence : ℚ
  reasoning : String
deriving Repr, DecidableEq

/-! ## Condition evaluator (`_evaluate_condition`) -/

/-- The preprocessing `condition.strip().rstrip(',')` at the top of
`_evaluate_condition`. -/
def pyPre (condition : String) : String := pyRstripCommas (pyStrip condition)

/-- The numeric-threshold block shared verbatim by the `Age`, `LoanTerm`,
`NumAccounts` and `LoanArea` branches of `_evaluate_condition`:
`'<=' in c` then `float(c.split('<=')[1].strip())`, else `'>' in c`
likewise; with neither comparator the function falls through to its final
`return True`. -/
def numCompare (c : String) (v : ℤ) : Option Bool :=
  if pyIn "<=" c then
    (parseFloat (pyStrip ((pySplit c "<=").getD 1 ""))).map
      (fun t => decide ((v : ℚ) ≤ t))
  else if pyIn ">" c then
    (parseFloat (pyStrip ((pySplit c ">").getD 1 ""))).map
      (fun t => decide ((v : ℚ) > t))
  else some true

/-- Body of `_evaluate_condition` after preprocessing: the if/elif chain
keyed on substring tests, ending in `return True`. `none` models a raised
exception (`ValueError` from `float`, or `IndexError` from
`split('[')[1]`). -/
def evalCond (c : String) (a : Applicant) : Option Bool :=
  if pyIn "Age" c then numCompare c a.age
  else if pyIn "Sex" c then
    if pyIn "=" c then
      some (pyLower a.sex == pyLower (pyStrip ((pySplit c "=").getD 1 "")))
    else some true
  else if pyIn "LoanTerm" c then numCompare c a.loan_term
  else if pyIn "NumAccounts" c then numCompare c a.num_accounts
  else if pyIn "LoanType" c then
    if pyIn "=" c && !pyIn "member" c then
      some (pyLower a.loan_type == pyLower (pyStrip ((pySplit c "=").getD 1 "")))
    else if pyIn "member(LoanType" c then
      match pySplit c "[" with
      | _ :: p :: _ =>
        let listPart := (pySplit p "]").headD ""
        let allowed := (pySplit listPart ",").map (fun t => pyLower (pyStrip t))
        some (allowed.contains (pyLower a.loan_type))
      | _ => none
    else some true
  else if pyIn "LoanArea" c then numCompare c a.loan_area
  else some true

/-- `PrologLoanClassifier._evaluate_condition`. -/
def evaluateCondition (condition : String) (a : Applicant) : Option Bool :=
  evalCond (pyPre condition) a

/-! ## Rule parser (`_parse_prolog_rules`) -/

/-- One iteration of the parser's `for line in lines` loop. `none` models
an exception escaping the loop body (only `float`/`int` in the comment
branch can raise). -/
def stepLine (st : ParseState) (rawLine : String) : Option ParseState :=
  let line := pyStrip rawLine
  if line.isEmpty || pyStartswith line "%" then
    if pyIn "Rule" line && pyIn "Confidence" line && pyIn "Samples" line then
      let parts := pySplit line ","
      let confidenceStr := (parts.filter (fun p => pyIn "Confidence" p)).headD ""
      let samplesStr := (parts.filter (fun p => pyIn "Samples" p)).headD ""
      match parseFloat ((pySplitWs confidenceStr).getLastD ""),
          parseInt ((pySplitWs samplesStr).getLastD "") with
      | some conf, some samp =>
        some { st with cur :=
          { st.cur with confidence := some conf, samples := some samp } }
      | _, _ => none
    else some st
  else if pyStartswith line "classify_loan(" && pyIn ":-" line then
    let decisionPart :=
      pyStrip ((pySplit ((pySplit line ",").getLastD "") ")").headD "")
    let conditionsPart := pyStrip ((pySplit line ":-").getD 1 "")
    let conds : List String :=
      if !conditionsPart.isEmpty && !pyEndswith conditionsPart "." then
        [conditionsPart]
      else if pyEndswith conditionsPart "." then [pyDropLast conditionsPart]
      else []
    some { st with inRule := true, cur :=
      { st.cur with decision := some decisionPart, conditions := some conds } }
  else if st.inRule && !line.isEmpty && !pyStartswith line "classify_loan(" then
    if pyEndswith line "." then
      let conds0 := st.cur.conditions.getD []
      let conds :=
        if line ≠ "." then conds0 ++ [pyStrip (pyDropLast line)] else conds0
      let newRule : Rule :=
        { decision := st.cur.decision, conditions := conds,
          confidence := st.cur.confidence.getD 1, samples := st.cur.samples.getD 1 }
      some { rules := st.rules ++ [newRule], cur := {}, inRule := false }
    else
      some { st with cur :=
        { st.cur with conditions := some ((st.cur.conditions.getD []) ++ [line]) } }
  else if pyStartswith line "classify_loan(" && pyEndswith line "." then
    let decisionPart :=
      pyStrip ((pySplit ((pySplit line ",").getLastD "") ")").headD "")
    let newRule : Rule :=
      { decision := some decisionPart, conditions := [],
        confidence := st.cur.confidence.getD 1, samples := st.cur.samples.getD 1 }
    some { st with rules := st.rules ++ [newRule], cur := {} }
  else some st

/-- The parser's initial state. -/
def initState : ParseState := { rules := [], cur := {}, inRule := false }

/-- The parser loop over all lines; `none` models an exception reaching
the enclosing `try`. -/
def parseLines (lines : List String) : Option (List Rule) := do
  let st ← lines.foldlM stepLine initState
  pure st.rules

/-- `PrologLoanClassifier._parse_prolog_rules` applied to the knowledge
base's lines: the `except` clauses turn any exception into `[]`. -/
def parsePrologRules (lines : List String) : List Rule :=
  (parseLines lines).getD []

/-- Loading the knowledge base: a missing file (`none`) triggers
`FileNotFoundError`, reported and turned into `[]`. -/
def loadRules : Option (List String) → List Rule
  | none => []
  | some lines => parsePrologRules lines

/-! ## Rule engine (`classify`) -/

/-- The inner loop of `classify`: all conditions of one rule must hold,
with early exit at the first falsified condition; `none` models an
exception raised by `_evaluate_condition`. -/
def allConditionsMet (conds : List String) (a : Applicant) : Option Bool :=
  match conds with
  | [] => some true
  | c :: cs =>
    match evaluateCondition c a with
    | none => none
    | some b => if b then allConditionsMet cs a else some false

/-- The `matching_rules` list built by `classify`, in rule order. -/
def matchingRules (rules : List Rule) (a : Applicant) : Option (List Rule) :=
  match rules with
  | [] => some []
  | ru :: rs =>
    match allConditionsMet ru.conditions a with
    | none => none
    | some b =>
      match matchingRules rs a with
      | none => none
      | some rest => some (if b then ru :: rest else rest)

/-- Python `max(matching_rules, key=lambda r: r['confidence'])`: scan
left to right, replacing the best only on a strictly greater key, hence
the earliest maximal element wins. -/
def pyMaxByConfidence (b : Rule) (bs : List Rule) : Rule :=
  bs.foldl (fun acc x => if acc.confidence < x.confidence then x else acc) b

/-- The fallback `reasoning` string of `classify`. -/
def noMatchMsg : String := "No Prolog rule matched - default rejection"

/-- The `reasoning` string of a successful match. -/
def matchedMsg (conf : ℚ) : String :=
  "Prolog rule matched (confidence: " ++ fmt3 conf ++ ")"

/-- The fallback result of `classify` when no rule matched: decision
`REJECTED`, confidence `0.5`. -/
def fallbackResult : ClassificationResult :=
  { decision := "REJECTED", confidence := mkRat 1 2, reasoning := noMatchMsg }

/-- `PrologLoanClassifier.classify`. `none` models an exception escaping
`classify` (condition evaluation raising, or the `KeyError` of a missing
`decision` key). -/
def classify (rules : List Rule) (a : Applicant) : Option ClassificationResult :=
  match matchingRules rules a with
  | none => none
  | some [] => some fallbackResult
  | some (b :: bs) =>
    let best := pyMaxByConfidence b bs
    match best.decision with
    | none => none
    | some d =>
      some { decision := pyUpper d, confidence := best.confidence,
             reasoning := matchedMsg best.confidence }

/-! ## Derived notions used to state the claims -/

/-- A condition matches one of the recognized field-keyword/comparator
patterns of `_evaluate_condition`: the guards of the if/elif chain paired
with the comparator guards inside each branch. -/
def matchesSomePattern (c : String) : Bool :=
  (pyIn "Age" c && (pyIn "<=" c || pyIn ">" c)) ||
  (pyIn "Sex" c && pyIn "=" c) ||
  (pyIn "LoanTerm" c && (pyIn "<=" c || pyIn ">" c)) ||
  (pyIn "NumAccounts" c && (pyIn "<=" c || pyIn ">" c)) ||
  (pyIn "LoanType" c &&
    ((pyIn "=" c && !pyIn "member" c) || pyIn "member(LoanType" c)) ||
  (pyIn "LoanArea" c && (pyIn "<=" c || pyIn ">" c))

/-- The six applicant fields named by condition keywords. -/
inductive FieldK where
  | age
  | sex
  | loanTerm
  | numAccounts
  | loanType
  | loanArea
deriving Repr, DecidableEq

/-- The keyword that actually governs a condition in the code: the first
keyword of the fixed if/elif chain order (Age, Sex, LoanTerm, NumAccounts,
LoanType, LoanArea) whose text occurs in the condition. -/
def chainKeyword (c : String) : Option FieldK :=
  if pyIn "Age" c then some FieldK.age
  else if pyIn "Sex" c then some FieldK.sex
  else if pyIn "LoanTerm" c then some FieldK.loanTerm
  else if pyIn "NumAccounts" c then some FieldK.numAccounts
  else if pyIn "LoanType" c then some FieldK.loanType
  else if pyIn "LoanArea" c then some FieldK.loanArea
  else none

/-- Two applicant records agree on the given field. -/
def agreesOn : FieldK → Applicant → Applicant → Prop
  | .age, a, b => a.age = b.age
  | .sex, a, b => a.sex = b.sex
  | .loanTerm, a, b => a.loan_term = b.loan_term
  | .numAccounts, a, b => a.num_accounts = b.num_accounts
  | .loanType, a, b => a.loan_type = b.loan_type
  | .loanArea, a, b => a.loan_area = b.loan_area

/-- The recognized keywords, in the evaluator's chain order. -/
def keywordList : List String :=
  ["Age", "Sex", "LoanTerm", "NumAccounts", "LoanType", "LoanArea"]

/-- Modelled from claim C7's words (not from the code): the recognized
field keyword whose occurrence is first (leftmost) in the condition text.
Used only to compare the claim's reading against the code's behavior. -/
def leftmostKeyword : List Char → Option String
  | [] => none
  | c :: tl =>
    match keywordList.find? (fun k => k.data.isPrefixOf (c :: tl)) with
    | some k => some k
    | none => leftmostKeyword tl

/-! ## Concrete inputs used in the theorems -/

/-- The Scenario A knowledge base: one metadata comment followed by a
single-line rule clause. -/
def scenarioALines : List String :=
  ["% Rule 1, Confidence 0.92, Samples 120",
   "classify_loan(Sex, Age, LoanTerm, NumAccounts, LoanType, LoanArea, approved) :- Age =< 31, LoanTerm =< 8.5."]

/-- The Scenario A applicant record. -/
def recA : Applicant :=
  { sex := "Male", age := 28, loan_term := 5, num_accounts := 3,
    loan_type := "Home", loan_area := 100 }

/-- The single-line rule clause of Scenario A on its own. -/
def singleLineRule : String :=
  "classify_loan(Sex, Age, LoanTerm, NumAccounts, LoanType, LoanArea, approved) :- Age =< 31, LoanTerm =< 8.5."

/-- A well-formed fact clause. -/
def goodFactLine : String := "classify_loan(x, approved)."

/-- A metadata comment whose confidence token is not numeric:
`float('abc')` raises `ValueError` inside the parser loop. -/
def badCommentLine : String := "% Rule 9, Confidence abc, Samples 5"

/-! ## Theorems -/

/-- C1. The code violates Scenario A: for the knowledge base consisting
of the comment `Rule 1, Confidence 0.92, Samples 120` and the single-line
clause `classify_loan(..., approved) :- Age =< 31, LoanTerm =< 8.5.`, the
parser produces no rule at all (the head-line branch never appends a
completed rule), so classifying the record (Male, 28, 5, 3, Home, 100)
returns the fallback REJECTED with confidence 0.5 — not APPROVED with
confidence 0.92 as the specification states. -/
theorem c1_scenarioA_code_behavior :
    parsePrologRules scenarioALines = [] ∧
      classify (parsePrologRules scenarioALines) recA = some fallbackResult ∧
      fallbackResult.decision = "REJECTED" ∧
      fallbackResult.confidence = mkRat 1 2 := by
  decide

/-- C2. The code violates single-line rule completion: on a head line
containing `classify_loan(` and `:-` whose right-hand side ends with the
terminator `.`, the parser strips the terminator and stores the remainder
as the staged condition, but it never appends the Rule to the output
sequence — it stays in the collecting state, and parsing that line alone
yields no rule. -/
theorem c2_single_line_rule_not_completed :
    stepLine initState singleLineRule =
      some { rules := [],
             cur := { decision := some "LoanTerm =< 8.5.",
                      conditions := some ["Age =< 31, LoanTerm =< 8.5"],
                      confidence := none, samples := none },
             inRule := true } ∧
      parsePrologRules [singleLineRule] = [] := by
  decide

/-- C5 counterexample. A malformed metadata comment (`Confidence abc`)
drops a well-formed rule from the same source: the fact line alone parses
to one rule, but together with the malformed comment the whole parse
yields the empty rule set, refuting that a malformed line never causes
other well-formed rules to be dropped. -/
theorem c5_malformed_comment_drops_all_rules :
    parsePrologRules [goodFactLine, badCommentLine] = [] ∧
      parsePrologRules [goodFactLine] =
        [{ decision := some "approved", conditions := [], confidence := 1,
           samples := 1 }] := by
  decide

/-- C8 counterexample. A condition with a recognized keyword and
comparator but a non-numeric operand (`Age <= abc`) makes the evaluation
raise (`none`), and the error is not contained: `classify` on a rule set
containing that rule raises as well, returning no ClassificationResult. -/
theorem c8_malformed_numeric_crashes_classify :
    evaluateCondition "Age <= abc" recA = none ∧
      classify [{ decision := some "approved", conditions := ["Age <= abc"],
                  confidence := mkRat 9 10, samples := 1 }] recA = none := by
  decide

/-- With neither `<=` nor `>` in the condition, the shared numeric block
falls through to the evaluator's final `return True`. -/
theorem numCompare_no_comparator (c : String) (v : ℤ)
    (h1 : pyIn "<=" c = false) (h2 : pyIn ">" c = false) :
    numCompare c v = some true := by
  simp [numCompare, h1, h2]

/-- Chain of the evaluator reduced branch by branch: helper for the
claims about which keyword governs a condition. -/
theorem evalCond_chain_agrees (cp : String) (a b : Applicant) (f : FieldK)
    (h : chainKeyword cp = some f) (hab : agreesOn f a b) :
    evalCond cp a = evalCond cp b := by
  unfold chainKeyword at h
  unfold evalCond
  by_cases kA : pyIn "Age" cp = true
  · rw [if_pos kA] at h
    obtain rfl := Option.some.inj h
    rw [if_pos kA, if_pos kA, show a.age = b.age from hab]
  · rw [if_neg kA] at h
    rw [if_neg kA, if_neg kA]
    by_cases kS : pyIn "Sex" cp = true
    · rw [if_pos kS] at h
      obtain rfl := Option.some.inj h
      rw [if_pos kS, if_pos kS, show a.sex = b.sex from hab]
    · rw [if_neg kS] at h
      rw [if_neg kS, if_neg kS]
      by_cases kT : pyIn "LoanTerm" cp = true
      · rw [if_pos kT] at h
        obtain rfl := Option.some.inj h
        rw [if_pos kT, if_pos kT, show a.loan_term = b.loan_term from hab]
      · rw [if_neg kT] at h
        rw [if_neg kT, if_neg kT]
        by_cases kN : pyIn "NumAccounts" cp = true
        · rw [if_pos kN] at h
          obtain rfl := Option.some.inj h
          rw [if_pos kN, if_pos kN, show a.num_accounts = b.num_accounts from hab]
        · rw [if_neg kN] at h
          rw [if_neg kN, if_neg kN]
          by_cases kY : pyIn "LoanType" cp = true
          · rw [if_pos kY] at h
            obtain rfl := Option.some.inj h
            rw [if_pos kY, if_pos kY, show a.loan_type = b.loan_type from hab]
          · rw [if_neg kY] at h
            rw [if_neg kY, if_neg kY]
            by_cases kR : pyIn "LoanArea" cp = true
            · rw [if_pos kR] at h
              obtain rfl := Option.some.inj h
              rw [if_pos kR, if_pos kR, show a.loan_area = b.loan_area from hab]
            · rw [if_neg kR] at h
              exact Option.noConfusion h

/-- Chain of the evaluator when the governing keyword is numeric and no
ASCII comparator occurs: every branch falls through to `True`. -/
theorem evalCond_numeric_no_comparator (cp : String) (a : Applicant) (f : FieldK)
    (h : chainKeyword cp = some f)
    (hf : f = FieldK.age ∨ f = FieldK.loanTerm ∨ f = FieldK.numAccounts ∨
      f = FieldK.loanArea)
    (h1 : pyIn "<=" cp = false) (h2 : pyIn ">" cp = false) :
    evalCond cp a = some true := by
  unfold chainKeyword at h
  unfold evalCond
  by_cases kA : pyIn "Age" cp = true
  · rw [if_pos kA]
    exact numCompare_no_comparator cp a.age h1 h2
  · rw [if_neg kA] at h
    rw [if_neg kA]
    by_cases kS : pyIn "Sex" cp = true
    · rw [if_pos kS] at h
      obtain rfl := Option.some.inj h
      rcases hf with h' | h' | h' | h' <;> exact FieldK.noConfusion h'
    · rw [if_neg kS] at h
      rw [if_neg kS]
      by_cases kT : pyIn "LoanTerm" cp = true
      · rw [if_pos kT]
        exact numCompare_no_comparator cp a.loan_term h1 h2
      · rw [if_neg kT] at h
        rw [if_neg kT]
        by_cases kN : pyIn "NumAccounts" cp = true
        · rw [if_pos kN]
          exact numCompare_no_comparator cp a.num_accounts h1 h2
        · rw [if_neg kN] at h
          rw [if_neg kN]
          by_cases kY : pyIn "LoanType" cp = true
          · rw [if_pos kY] at h
            obtain rfl := Option.some.inj h
            rcases hf with h' | h' | h' | h' <;> exact FieldK.noConfusion h'
          · rw [if_neg kY] at h
            rw [if_neg kY]
            by_cases kR : pyIn "LoanArea" cp = true
            · rw [if_pos kR]
              exact numCompare_no_comparator cp a.loan_area h1 h2
            · rw [if_neg kR] at h
              exact Option.noConfusion h

/-- The evaluator's body returns `True` whenever the (preprocessed)
condition matches none of the recognized keyword/comparator patterns. -/
theorem evalCond_unrecognized (cp : String) (a : Applicant)
    (h : matchesSomePattern cp = false) : evalCond cp a = some true := by
  simp only [matchesSomePattern, Bool.or_eq_false_iff, Bool.and_eq_false_iff] at h
  obtain ⟨⟨⟨⟨⟨hA, hS⟩, hT⟩, hN⟩, hY⟩, hR⟩ := h
  unfold evalCond numCompare
  rcases hA with hA | hA <;> rcases hS with hS | hS <;> rcases hT with hT | hT <;>
    rcases hN with hN | hN <;> rcases hY with hY | ⟨hY1 | hY1, hY2⟩ <;>
    rcases hR with hR | hR <;>
    simp_all [Bool.or_eq_false_iff, Bool.and_eq_false_iff]

/-- C4. For every record, whenever no rule matches — and in particular
for every record against the empty RuleSet, whose matching set is `[]` by
computation — `classify` returns exactly decision REJECTED, confidence
0.5, and the reasoning string stating that no Prolog rule matched. -/
theorem c4_no_match_fallback (rules : List Rule) (a : Applicant)
    (h : matchingRules rules a = some []) :
    classify rules a =
      some { decision := "REJECTED", confidence := mkRat 1 2,
             reasoning := "No Prolog rule matched - default rejection" } ∧
      matchingRules ([] : List Rule) a = some [] := by
  constructor
  · unfold classify
    rw [h]
    rfl
  · rfl

/-- A rule whose only condition fails on `recA` (age 28 is not at most
10): a non-matching rule set for the C4 witness. -/
def c4wRule : Rule :=
  { decision := some "approved", conditions := ["Age <= 10"],
    confidence := 1, samples := 1 }

/-- Witness for C4 at a concrete non-matching rule set and record. -/
theorem c4_no_match_fallback_witness :
    matchingRules [c4wRule] recA = some [] ∧
      classify [c4wRule] recA =
        some { decision := "REJECTED", confidence := mkRat 1 2,
               reasoning := "No Prolog rule matched - default rejection" } :=
  ⟨by decide, (c4_no_match_fallback [c4wRule] recA (by decide)).1⟩

/-- C6. For every applicant record, a condition string that matches none
of the recognized field-keyword/comparator patterns (after the code's
`strip().rstrip(',')` preprocessing) evaluates to true — the permissive
pass-through of the evaluator's final `return True`. -/
theorem c6_unrecognized_condition_true (c : String) (a : Applicant)
    (h : matchesSomePattern (pyPre c) = false) :
    evaluateCondition c a = some true :=
  evalCond_unrecognized (pyPre c) a h

/-- Witness for C6 at a concrete unrecognized condition. -/
theorem c6_unrecognized_condition_true_witness :
    matchesSomePattern (pyPre "approved_by(manager)") = false ∧
      evaluateCondition "approved_by(manager)" recA = some true :=
  ⟨by decide, c6_unrecognized_condition_true "approved_by(manager)" recA (by decide)⟩

/-- A condition whose leftmost recognized keyword is `NumAccounts` but
which the code evaluates against `Age` (the first keyword of the if/elif
chain). -/
def c7cond : String := "NumAccounts, Age <= 10"

/-- Record with low age for the C7 counterexample. -/
def c7recLow : Applicant :=
  { sex := "Male", age := 5, loan_term := 3, num_accounts := 3,
    loan_type := "Home", loan_area := 100 }

/-- Same record with a different age (identical `num_accounts`). -/
def c7recHigh : Applicant := { c7recLow with age := 50 }

/-- C7 counterexample. For the condition `NumAccounts, Age <= 10` the
leftmost recognized keyword is `NumAccounts`, yet two records with the
same `num_accounts` value (3, which satisfies 3 ≤ 10) evaluate
differently — the outcome follows `age`, so the evaluation is not
governed by the leftmost keyword, refuting the claim (whose own example
predicts evaluation against the `num_accounts` field, hence `true` for
both records). -/
theorem c7_leftmost_keyword_refuted :
    leftmostKeyword (pyPre c7cond).data = some "NumAccounts" ∧
      c7recLow.num_accounts = c7recHigh.num_accounts ∧
      c7recLow.num_accounts = 3 ∧
      evaluateCondition c7cond c7recLow = some true ∧
      evaluateCondition c7cond c7recHigh = some false := by
  decide

/-- C7 amended. The field governing a multi-keyword condition is the
first keyword of the evaluator's fixed check order Age, Sex, LoanTerm,
NumAccounts, LoanType, LoanArea that occurs anywhere in the (preprocessed)
condition text — not the leftmost occurrence in the text: two records
agreeing on that chain-first field evaluate identically, whatever their
other fields. -/
theorem c7_amended_chain_order_governs (c : String) (a b : Applicant)
    (f : FieldK) (h : chainKeyword (pyPre c) = some f)
    (hab : agreesOn f a b) :
    evaluateCondition c a = evaluateCondition c b :=
  evalCond_chain_agrees (pyPre c) a b f h hab

/-- Witness for the amended C7: `NumAccounts, Age <= 10` is governed by
`Age`; two records agreeing on age but differing on `num_accounts`
evaluate identically. -/
theorem c7_amended_chain_order_governs_witness :
    chainKeyword (pyPre c7cond) = some FieldK.age ∧
      agreesOn FieldK.age c7recLow { c7recLow with num_accounts := 20 } ∧
      evaluateCondition c7cond c7recLow =
        evaluateCondition c7cond { c7recLow with num_accounts := 20 } :=
  ⟨by decide, rfl,
    c7_amended_chain_order_governs c7cond c7recLow
      { c7recLow with num_accounts := 20 } FieldK.age (by decide) rfl⟩

/-- C8 amended. A condition with a recognized keyword and comparator but
a non-parseable numeric operand makes `_evaluate_condition` raise
`ValueError`; the error is not local to the condition: it propagates out
of `classify`, which therefore returns no ClassificationResult at all
(the interactive loop's catch-all is the only containment), for every
record and whatever the rule's other fields. -/
theorem c8_amended_malformed_numeric_propagates (a : Applicant)
    (d : Option String) (conf : ℚ) (n : ℤ) :
    evaluateCondition "Age <= abc" a = none ∧
      classify [{ decision := d, conditions := ["Age <= abc"],
                  confidence := conf, samples := n }] a = none := by
  have hnum : numCompare "Age <= abc" a.age = none := by
    have h1 : pyIn "<=" "Age <= abc" = true := by decide
    have h2 : parseFloat (pyStrip ((pySplit "Age <= abc" "<=").getD 1 "")) = none := by
      decide
    unfold numCompare
    rw [if_pos h1, h2]
    rfl
  have he : evaluateCondition "Age <= abc" a = none := by
    have hpre : pyPre "Age <= abc" = "Age <= abc" := by decide
    have hA : pyIn "Age" "Age <= abc" = true := by decide
    unfold evaluateCondition
    rw [hpre]
    unfold evalCond
    rw [if_pos hA]
    exact hnum
  refine ⟨he, ?_⟩
  simp [classify, matchingRules, allConditionsMet, he]

/-- The C10 counterexample condition: it contains the numeric keyword
`LoanTerm` and neither `<=` nor `>`, but the `Sex` branch (checked
earlier in the chain) intercepts it through the `=` of `=<`. -/
def c10cond : String := "Sex = male, LoanTerm =< 5"

/-- C10 counterexample. The condition `Sex = male, LoanTerm =< 5`
contains the recognized numeric keyword `LoanTerm` and contains neither
`<=` nor `>`, yet it evaluates to false (not true) for the Scenario A
record: the `Sex`/`=` branch intercepts it and compares `male` against
the split remainder `male, loanterm`. -/
theorem c10_numeric_keyword_claim_refuted :
    pyIn "LoanTerm" (pyPre c10cond) = true ∧
      pyIn "<=" (pyPre c10cond) = false ∧
      pyIn ">" (pyPre c10cond) = false ∧
      evaluateCondition c10cond recA = some false := by
  decide

/-- C10 amended. A condition whose chain-governing keyword (first of the
evaluator's check order present in the preprocessed text) is one of the
numeric fields Age, LoanTerm, NumAccounts, LoanArea and which contains
neither `<=` nor `>` evaluates to true for every record — in particular
every Prolog-style `=<` condition such as `Age =< 31`. Conditions whose
chain-governing keyword is `Sex` or `LoanType` are excepted (the `=` of
`=<` can make those branches return a string comparison instead). -/
theorem c10_amended_numeric_no_comparator_true (c : String) (a : Applicant)
    (f : FieldK) (h : chainKeyword (pyPre c) = some f)
    (hf : f = FieldK.age ∨ f = FieldK.loanTerm ∨ f = FieldK.numAccounts ∨
      f = FieldK.loanArea)
    (h1 : pyIn "<=" (pyPre c) = false) (h2 : pyIn ">" (pyPre c) = false) :
    evaluateCondition c a = some true :=
  evalCond_numeric_no_comparator (pyPre c) a f h hf h1 h2

/-- Witness for the amended C10 at the Scenario A condition `Age =< 31`. -/
theorem c10_amended_numeric_no_comparator_true_witness :
    chainKeyword (pyPre "Age =< 31") = some FieldK.age ∧
      pyIn "<=" (pyPre "Age =< 31") = false ∧
      pyIn ">" (pyPre "Age =< 31") = false ∧
      evaluateCondition "Age =< 31" recA = some true :=
  ⟨by decide, by decide, by decide,
    c10_amended_numeric_no_comparator_true "Age =< 31" recA FieldK.age
      (by decide) (Or.inl rfl) (by decide) (by decide)⟩

/-- C5 amended. The parser never propagates an exception to its caller
(an internal failure surfaces as `none` and the enclosing `except` turns
it into the empty rule set), and a missing knowledge-base source yields
the empty rule set; a line that matches no grammar pattern while the
parser is outside a rule is skipped without affecting anything else; but
a comment line whose Confidence/Samples token fails numeric parsing
aborts the entire parse (shown separately by the counterexample), so
malformed-line containment holds only for pattern-miss lines, not for
raising ones. -/
theorem c5_amended_parser_degradation (lines : List String) (st : ParseState)
    (junk : String) (rest : List String)
    (hout : st.inRule = false)
    (h1 : (pyStrip junk).isEmpty = false)
    (h2 : pyStartswith (pyStrip junk) "%" = false)
    (h3 : pyStartswith (pyStrip junk) "classify_loan(" = false) :
    loadRules none = [] ∧
      (parseLines lines = none → parsePrologRules lines = []) ∧
      stepLine st junk = some st ∧
      parsePrologRules (junk :: rest) = parsePrologRules rest := by
  have hstep : ∀ s : ParseState, s.inRule = false → stepLine s junk = some s := by
    intro s hs
    simp [stepLine, h1, h2, h3, hs]
  refine ⟨rfl, ?_, hstep st hout, ?_⟩
  · intro h
    unfold parsePrologRules
    rw [h]
    rfl
  · unfold parsePrologRules parseLines
    rw [List.foldlM_cons, hstep initState rfl]
    rfl

/-- Witness for the amended C5: a junk line outside any rule is skipped
and does not disturb the parse of a well-formed fact. -/
theorem c5_amended_parser_degradation_witness :
    loadRules none = [] ∧
      (parseLines [goodFactLine] = none → parsePrologRules [goodFactLine] = []) ∧
      stepLine initState "some stray line" = some initState ∧
      parsePrologRules ["some stray line", goodFactLine] =
        parsePrologRules [goodFactLine] :=
  c5_amended_parser_degradation [goodFactLine] initState "some stray line"
    [goodFactLine] rfl (by decide) (by decide) (by decide)

/-- Unfolding `pyMaxByConfidence` one step. -/
theorem pyMax_cons (b x : Rule) (xs : List Rule) :
    pyMaxByConfidence b (x :: xs) =
      pyMaxByConfidence (if b.confidence < x.confidence then x else b) xs := rfl

/-- Python's `max` keeps the earliest element among equal keys: the
result splits the scanned list into a strict-smaller prefix and a
no-larger suffix around the chosen element. -/
theorem pyMax_decomp (bs : List Rule) : ∀ b : Rule,
    ∃ l1 l2, b :: bs = l1 ++ pyMaxByConfidence b bs :: l2 ∧
      (∀ x ∈ l1, x.confidence < (pyMaxByConfidence b bs).confidence) ∧
      (∀ x ∈ l2, x.confidence ≤ (pyMaxByConfidence b bs).confidence) := by
  induction bs with
  | nil =>
    intro b
    refine ⟨[], [], rfl, ?_, ?_⟩
    · intro x hx
      cases hx
    · intro x hx
      cases hx
  | cons x xs ih =>
    intro b
    by_cases hbx : b.confidence < x.confidence
    · have hM : pyMaxByConfidence b (x :: xs) = pyMaxByConfidence x xs := by
        rw [pyMax_cons, if_pos hbx]
      obtain ⟨l1, l2, hdec, hlt, hle⟩ := ih x
      have hxM : x.confidence ≤ (pyMaxByConfidence x xs).confidence := by
        cases l1 with
        | nil =>
          rw [List.nil_append] at hdec
          injection hdec with hd1 hd2
          exact le_of_eq (congrArg Rule.confidence hd1)
        | cons y l1t =>
          rw [List.cons_append] at hdec
          injection hdec with hd1 hd2
          have hxy : x.confidence = y.confidence := congrArg Rule.confidence hd1
          rw [hxy]
          exact le_of_lt (hlt y (List.mem_cons_self y l1t))
      refine ⟨b :: l1, l2, ?_, ?_, ?_⟩
      · rw [hM, List.cons_append, ← hdec]
      · intro z hz
        rw [hM]
        rcases List.mem_cons.mp hz with rfl | hz2
        · exact lt_of_lt_of_le hbx hxM
        · exact hlt z hz2
      · intro z hz
        rw [hM]
        exact hle z hz
    · have hM : pyMaxByConfidence b (x :: xs) = pyMaxByConfidence b xs := by
        rw [pyMax_cons, if_neg hbx]
      obtain ⟨l1, l2, hdec, hlt, hle⟩ := ih b
      have hxb : x.confidence ≤ b.confidence := le_of_not_lt hbx
      cases l1 with
      | nil =>
        rw [List.nil_append] at hdec
        injection hdec with hd1 hd2
        refine ⟨[], x :: xs, ?_, ?_, ?_⟩
        · rw [hM, List.nil_append, ← hd1]
        · intro z hz
          cases hz
        · intro z hz
          rw [hM, ← hd1]
          rcases List.mem_cons.mp hz with rfl | hz2
          · exact hxb
          · have hz3 := hle z (hd2 ▸ hz2)
            rw [← hd1] at hz3
            exact hz3
      | cons y l1t =>
        rw [List.cons_append] at hdec
        injection hdec with hd1 hd2
        have hbM : b.confidence < (pyMaxByConfidence b xs).confidence := by
          have hby : b.confidence = y.confidence := congrArg Rule.confidence hd1
          rw [hby]
          exact hlt y (List.mem_cons_self y l1t)
        refine ⟨b :: x :: l1t, l2, ?_, ?_, ?_⟩
        · rw [hM]
          exact congrArg (fun t => b :: x :: t) hd2
        · intro z hz
          rw [hM]
          rcases List.mem_cons.mp hz with rfl | hz2
          · exact hbM
          · rcases List.mem_cons.mp hz2 with rfl | hz3
            · exact lt_of_le_of_lt hxb hbM
            · exact hlt z (List.mem_cons_of_mem y hz3)
        · intro z hz
          rw [hM]
          exact hle z hz

/-- Every element of the `matching_rules` list is one of the input
rules. -/
theorem matchingRules_mem (a : Applicant) : ∀ rules m : List Rule,
    matchingRules rules a = some m → ∀ x ∈ m, x ∈ rules := by
  intro rules
  induction rules with
  | nil =>
    intro m h x hx
    injection h with h1
    rw [← h1] at hx
    cases hx
  | cons ru rs ih =>
    intro m h x hx
    unfold matchingRules at h
    cases hc : allConditionsMet ru.conditions a with
    | none =>
      rw [hc] at h
      exact Option.noConfusion h
    | some bb =>
      rw [hc] at h
      cases hr : matchingRules rs a with
      | none =>
        rw [hr] at h
        exact Option.noConfusion h
      | some rest =>
        rw [hr] at h
        injection h with h1
        cases bb with
        | true =>
          rw [← h1, if_pos rfl] at hx
          rcases List.mem_cons.mp hx with rfl | hx2
          · exact List.mem_cons_self x rs
          · exact List.mem_cons_of_mem ru (ih rest hr x hx2)
        | false =>
          rw [← h1, if_neg Bool.false_ne_true] at hx
          exact List.mem_cons_of_mem ru (ih rest hr x hx)

/-- Unfolding `classify` to its decision structure. -/
theorem classify_eq (rules : List Rule) (a : Applicant) :
    classify rules a =
      match matchingRules rules a with
      | none => none
      | some [] => some fallbackResult
      | some (b :: bs) =>
        match (pyMaxByConfidence b bs).decision with
        | none => none
        | some d =>
          some { decision := pyUpper d,
                 confidence := (pyMaxByConfidence b bs).confidence,
                 reasoning := matchedMsg (pyMaxByConfidence b bs).confidence } :=
  rfl

/-- C3. Whenever the matching set is non-empty (and every parsed rule
carries a decision, as the data model requires), `classify` returns the
uppercased decision and the confidence of the matching rule with maximal
confidence, and among ties the one earliest in the rule set's parse
order: the matching list splits as `l1 ++ best :: l2` with everything in
`l1` strictly below and everything in `l2` at most `best`'s confidence. -/
theorem c3_classify_selects_max_earliest (rules : List Rule) (a : Applicant)
    (m : List Rule) (hm : matchingRules rules a = some m) (hne : m ≠ [])
    (hd : ∀ ru ∈ rules, (ru.decision).isSome = true) :
    ∃ l1 best l2 d, m = l1 ++ best :: l2 ∧
      (∀ x ∈ l1, x.confidence < best.confidence) ∧
      (∀ x ∈ l2, x.confidence ≤ best.confidence) ∧
      best.decision = some d ∧
      classify rules a =
        some { decision := pyUpper d, confidence := best.confidence,
               reasoning := matchedMsg best.confidence } := by
  obtain ⟨b, bs, rfl⟩ : ∃ b bs, m = b :: bs := by
    cases m with
    | nil => exact absurd rfl hne
    | cons b bs => exact ⟨b, bs, rfl⟩
  obtain ⟨l1, l2, hdec, hlt, hle⟩ := pyMax_decomp bs b
  have hmem : pyMaxByConfidence b bs ∈ b :: bs := by
    rw [hdec]
    exact List.mem_append.mpr (Or.inr (List.mem_cons_self _ _))
  have hbr : pyMaxByConfidence b bs ∈ rules :=
    matchingRules_mem a rules (b :: bs) hm _ hmem
  obtain ⟨d, hd2⟩ := Option.isSome_iff_exists.mp (hd _ hbr)
  refine ⟨l1, pyMaxByConfidence b bs, l2, d, hdec, hlt, hle, hd2, ?_⟩
  have hcl : classify rules a =
      (match (pyMaxByConfidence b bs).decision with
       | none => none
       | some d =>
         some { decision := pyUpper d,
                confidence := (pyMaxByConfidence b bs).confidence,
                reasoning := matchedMsg (pyMaxByConfidence b bs).confidence }) := by
    rw [classify_eq, hm]
  rw [hcl, hd2]

/-- Three unconditional rules for the C3 witness: the maximum confidence
0.95 is shared by the second and third; the second (earlier) must win. -/
def c3r1 : Rule := { decision := some "rejected", conditions := [], confidence := mkRat 4 5, samples := 1 }

/-- Second witness rule (earliest rule of maximal confidence). -/
def c3r2 : Rule := { decision := some "approved", conditions := [], confidence := mkRat 19 20, samples := 1 }

/-- Third witness rule (same confidence as the second, later). -/
def c3r3 : Rule := { decision := some "rejected", conditions := [], confidence := mkRat 19 20, samples := 7 }

/-- Witness for C3 at a concrete rule set with a confidence tie. -/
theorem c3_classify_selects_max_earliest_witness :
    ∃ l1 best l2 d, [c3r1, c3r2, c3r3] = l1 ++ best :: l2 ∧
      (∀ x ∈ l1, x.confidence < best.confidence) ∧
      (∀ x ∈ l2, x.confidence ≤ best.confidence) ∧
      best.decision = some d ∧
      classify [c3r1, c3r2, c3r3] recA =
        some { decision := pyUpper d, confidence := best.confidence,
               reasoning := matchedMsg best.confidence } :=
  c3_classify_selects_max_earliest [c3r1, c3r2, c3r3] recA [c3r1, c3r2, c3r3]
    (by decide) (by decide) (by decide)

/-- Two rule sets identical except possibly in the `sample_count`
(`samples`) values of their rules. -/
def sameExceptSamples (rs1 rs2 : List Rule) : Prop :=
  List.Forall₂
    (fun x y => x.decision = y.decision ∧ x.conditions = y.conditions ∧
      x.confidence = y.confidence) rs1 rs2

/-- Unfolding `matchingRules` one step. -/
theorem matchingRules_cons (ru : Rule) (rs : List Rule) (a : Applicant) :
    matchingRules (ru :: rs) a =
      match allConditionsMet ru.conditions a with
      | none => none
      | some b =>
        match matchingRules rs a with
        | none => none
        | some rest => some (if b then ru :: rest else rest) :=
  rfl

/-- `max` by confidence preserves the samples-erased relation between
rule lists. -/
theorem pyMax_rel (bs1 bs2 : List Rule) (h : sameExceptSamples bs1 bs2) :
    ∀ b1 b2 : Rule, b1.decision = b2.decision → b1.conditions = b2.conditions →
      b1.confidence = b2.confidence →
      (pyMaxByConfidence b1 bs1).decision = (pyMaxByConfidence b2 bs2).decision ∧
        (pyMaxByConfidence b1 bs1).conditions =
          (pyMaxByConfidence b2 bs2).conditions ∧
        (pyMaxByConfidence b1 bs1).confidence =
          (pyMaxByConfidence b2 bs2).confidence := by
  induction h with
  | nil =>
    intro b1 b2 h1 h2 h3
    exact ⟨h1, h2, h3⟩
  | @cons x y tl1 tl2 hxy htl ih =>
    intro b1 b2 h1 h2 h3
    rw [pyMax_cons, pyMax_cons]
    have hg : (b1.confidence < x.confidence) = (b2.confidence < y.confidence) := by
      rw [h3, hxy.2.2]
    by_cases hc : b1.confidence < x.confidence
    · rw [if_pos hc, if_pos (hg ▸ hc)]
      exact ih x y hxy.1 hxy.2.1 hxy.2.2
    · rw [if_neg hc, if_neg (hg ▸ hc)]
      exact ih b1 b2 h1 h2 h3

/-- The matching sets computed from samples-erased-equal rule sets are
either both exceptions or again samples-erased equal. -/
theorem matchingRules_rel (rs1 rs2 : List Rule) (h : sameExceptSamples rs1 rs2)
    (a : Applicant) :
    (matchingRules rs1 a = none ∧ matchingRules rs2 a = none) ∨
      (∃ m1 m2, matchingRules rs1 a = some m1 ∧ matchingRules rs2 a = some m2 ∧
        sameExceptSamples m1 m2) := by
  induction h with
  | nil => exact Or.inr ⟨[], [], rfl, rfl, List.Forall₂.nil⟩
  | @cons x y tl1 tl2 hxy htl ih =>
    have hcond : allConditionsMet x.conditions a = allConditionsMet y.conditions a := by
      rw [hxy.2.1]
    cases hc : allConditionsMet x.conditions a with
    | none =>
      refine Or.inl ⟨?_, ?_⟩
      · rw [matchingRules_cons, hc]
      · rw [matchingRules_cons, ← hcond, hc]
    | some bb =>
      rcases ih with ⟨ih1, ih2⟩ | ⟨m1, m2, ih1, ih2, ihrel⟩
      · refine Or.inl ⟨?_, ?_⟩
        · rw [matchingRules_cons, hc, ih1]
        · rw [matchingRules_cons, ← hcond, hc, ih2]
      · refine Or.inr
          ⟨if bb then x :: m1 else m1, if bb then y :: m2 else m2, ?_, ?_, ?_⟩
        · rw [matchingRules_cons, hc, ih1]
        · rw [matchingRules_cons, ← hcond, hc, ih2]
        · cases bb with
          | true =>
            rw [if_pos rfl, if_pos rfl]
            exact List.Forall₂.cons hxy ihrel
          | false =>
            rw [if_neg Bool.false_ne_true, if_neg Bool.false_ne_true]
            exact ihrel

/-- C9. For every record and every pair of rule sets identical except in
their rules' `sample_count` values, `classify` returns the same result
(decision, confidence, and reasoning) on both: `sample_count` never
influences matching or selection. -/
theorem c9_sample_count_noninterference (rs1 rs2 : List Rule) (a : Applicant)
    (h : sameExceptSamples rs1 rs2) :
    classify rs1 a = classify rs2 a := by
  rcases matchingRules_rel rs1 rs2 h a with ⟨h1, h2⟩ | ⟨m1, m2, h1, h2, hrel⟩
  · rw [classify_eq, classify_eq, h1, h2]
  · rw [classify_eq, classify_eq, h1, h2]
    cases hrel with
    | nil => rfl
    | @cons x y tl1 tl2 hxy htl =>
      have hb := pyMax_rel tl1 tl2 htl x y hxy.1 hxy.2.1 hxy.2.2
      show (match (pyMaxByConfidence x tl1).decision with
            | none => (none : Option ClassificationResult)
            | some d =>
              some (ClassificationResult.mk (pyUpper d)
                (pyMaxByConfidence x tl1).confidence
                (matchedMsg (pyMaxByConfidence x tl1).confidence))) =
          (match (pyMaxByConfidence y tl2).decision with
            | none => none
            | some d =>
              some (ClassificationResult.mk (pyUpper d)
                (pyMaxByConfidence y tl2).confidence
                (matchedMsg (pyMaxByConfidence y tl2).confidence)))
      rw [hb.1, hb.2.2]

/-- Witness rule for C9 with sample count 1. -/
def c9r1 : Rule :=
  { decision := some "approved", conditions := ["Age <= 31"],
    confidence := mkRat 9 10, samples := 1 }

/-- Witness rule for C9: same rule except sample count 120. -/
def c9r2 : Rule :=
  { decision := some "approved", conditions := ["Age <= 31"],
    confidence := mkRat 9 10, samples := 120 }

/-- Witness for C9 at two concrete rule sets differing only in samples. -/
theorem c9_sample_count_noninterference_witness :
    sameExceptSamples [c9r1] [c9r2] ∧
      classify [c9r1] recA = classify [c9r2] recA :=
  ⟨List.Forall₂.cons ⟨rfl, rfl, rfl⟩ List.Forall₂.nil,
    c9_sample_count_noninterference [c9r1] [c9r2] recA
      (List.Forall₂.cons ⟨rfl, rfl, rfl⟩ List.Forall₂.nil)⟩

end LoanProlog
